import Mathlib

/-!
Shallow embedding of the rotation core of the cleaning-schedule service
(src/server.js): the helpers `getMondayOfWeek` and `addDays`, and the two
rotation functions `getCurrentRotation` and `getUpcomingRotations`.

Modelling conventions:
* A JavaScript `Date` is its time value: an integer number of milliseconds
  since the Unix epoch (`Int`).  All computation in the source is done on
  UTC calendar fields, which are pure functions of the time value.
* `Math.floor(x / d)` on an integer `x` and positive integer `d` is
  floor division, `Int.fdiv`.
* The JavaScript remainder operator `%` truncates toward zero (the result
  has the sign of the dividend), which is `Int.tmod`; `x % 0` is `NaN`,
  modelled as `none` in an `Option Int`.
* `people[i]` on an out-of-range or `NaN` index is `undefined`, modelled
  as `none` in an `Option String`.
* `Date.UTC(y, m, dom, 0, 0, 0, 0)` is linear in the day-of-month
  argument `dom` (ECMAScript `MakeDay` adds `dom - 1` days to the first
  of the month), so for the fields `(y, m, dom)` read off an instant `t`,
  `Date.UTC(y, m, dom + k, 0, 0, 0, 0)` equals the start of the UTC day
  of `t` plus `k` days.  (This identification uses that `getUTCFullYear`
  is not in `[0, 99]`, where `Date.UTC` would re-map the year to
  `1900 + y`; every date in this development is far from that range.)
  The same linearity models `setUTCDate(getUTCDate() + days)`.
* The source reads `now` from the wall clock (`new Date()`) inside the
  rotation functions; the embedding passes the instant that read yields
  as an explicit final argument `now`, and separate `...AsCalled`
  wrappers record the source's actual parameter shape explicitly.
-/

namespace CleaningSchedule

/-- Milliseconds in one UTC day: the divisor `1000 * 60 * 60 * 24` used in
src/server.js. -/
def msPerDay : Int := 86400000

/-- Number of the UTC calendar day containing the instant `t` (day 0 is
1970-01-01), i.e. `Math.floor(t / msPerDay)`. -/
def dayNumber (t : Int) : Int := Int.fdiv t msPerDay

/-- Start of the UTC calendar day containing `t` (00:00:00.000 UTC). -/
def startOfUTCDay (t : Int) : Int := dayNumber t * msPerDay

/-- `Date.prototype.getUTCDay`: day of week, 0 = Sunday .. 6 = Saturday.
Day 0 of the epoch (1970-01-01) was a Thursday, code 4. -/
def getUTCDay (t : Int) : Int := (dayNumber t + 4) % 7

/-- `getMondayOfWeek` from src/server.js.  The source computes
`diff = d.getUTCDate() - day + (day === 0 ? -6 : 1)` and returns
`Date.UTC(year, month, diff, 0, 0, 0, 0)`.  By linearity of `Date.UTC`
in the day-of-month argument this is the start of the UTC day of `t`
shifted by `diff - getUTCDate(t) = -day + (if day = 0 then -6 else 1)`
days. -/
def getMondayOfWeek (t : Int) : Int :=
  let day := getUTCDay t
  startOfUTCDay t + (-day + (if day = 0 then -6 else 1)) * msPerDay

/-- `addDays` from src/server.js: `setUTCDate(getUTCDate() + days)`,
which by linearity of the day-of-month field shifts the instant by
exactly `days` whole days. -/
def addDays (t : Int) (days : Int) : Int := t + days * msPerDay

/-- `setUTCHours(23, 59, 59, 999)`: replace the time of day within the
UTC day containing `t` by the last millisecond of that day. -/
def setEndOfUTCDay (t : Int) : Int := startOfUTCDay t + (msPerDay - 1)

/-- The JavaScript remainder `a % b` on integers: `NaN` (here `none`)
when `b = 0`, otherwise the remainder of truncated division (sign of the
dividend), `Int.tmod`. -/
def jsRem (a b : Int) : Option Int :=
  if b = 0 then none else some (Int.tmod a b)

/-- JavaScript array indexing `xs[i]` where `i` may be `NaN` (`none`):
yields `undefined` (`none`) unless `0 ≤ i < xs.length`. -/
def jsIndex (xs : List String) : Option Int → Option String
  | none => none
  | some i =>
    if h : 0 ≤ i ∧ i.toNat < xs.length then some (xs.get ⟨i.toNat, h.2⟩)
    else none

/-- The record returned by `getCurrentRotation` in src/server.js.
`currentPerson` is `Option String` because the source's array access can
yield `undefined`; `currentPersonIndex` is `Option Int` because the
source's `%` can yield `NaN` (when `people` is empty). -/
structure Rotation where
  currentPerson : Option String
  currentPersonIndex : Option Int
  rotationNumber : Int
  periodStart : Int
  periodEnd : Int
  weeksSinceStart : Int
  daysSinceStart : Int
  isActive : Bool
deriving DecidableEq

/-- `getCurrentRotation(startDate, people)` from src/server.js, with the
instant produced by its internal `const now = new Date()` passed as the
explicit argument `now`. -/
def getCurrentRotation (startDate : Int) (people : List String) (now : Int) :
    Rotation :=
  let startMonday := getMondayOfWeek startDate
  let daysSinceStart := Int.fdiv (now - startMonday) msPerDay
  let rotationNumber := Int.fdiv daysSinceStart 14
  let personIndex := jsRem rotationNumber (people.length : Int)
  let rotationStart := addDays startMonday (rotationNumber * 14)
  let rotationEnd := setEndOfUTCDay (addDays rotationStart 13)
  { currentPerson := jsIndex people personIndex
    currentPersonIndex := personIndex
    rotationNumber := rotationNumber + 1
    periodStart := rotationStart
    periodEnd := rotationEnd
    weeksSinceStart := Int.fdiv daysSinceStart 7
    daysSinceStart := daysSinceStart
    isActive := decide (now ≥ rotationStart) && decide (now ≤ rotationEnd) }

/-- One element of the array returned by `getUpcomingRotations` in
src/server.js. -/
structure UpcomingRotation where
  person : Option String
  rotationNumber : Int
  periodStart : Int
  periodEnd : Int
  isCurrent : Bool
deriving DecidableEq

/-- `getUpcomingRotations(startDate, people, count)` from src/server.js,
with the instant read by its internal `new Date()` passed as the explicit
argument `now`.  The loop `for (let i = 1; i <= count; i++)` runs
`max count 0` times, with `i = k + 1` on iteration `k`. -/
def getUpcomingRotations (startDate : Int) (people : List String)
    (count : Int) (now : Int) : List UpcomingRotation :=
  let startMonday := getMondayOfWeek startDate
  let daysSinceStart := Int.fdiv (now - startMonday) msPerDay
  let currentRotationNumber := Int.fdiv daysSinceStart 14
  (List.range count.toNat).map (fun (k : Nat) =>
    let i : Int := (k : Int) + 1
    let rotationNumber := currentRotationNumber + i
    let personIndex := jsRem rotationNumber (people.length : Int)
    let rotationStart := addDays startMonday (rotationNumber * 14)
    let rotationEnd := setEndOfUTCDay (addDays rotationStart 13)
    { person := jsIndex people personIndex
      rotationNumber := rotationNumber + 1
      periodStart := rotationStart
      periodEnd := rotationEnd
      isCurrent := false })

/-- The source's default `count = 5`, as used by the GET routes that call
`getUpcomingRotations(schedule.startDate, schedule.people)`. -/
def getUpcomingRotationsDefault (startDate : Int) (people : List String)
    (now : Int) : List UpcomingRotation :=
  getUpcomingRotations startDate people 5 now

/-- `getCurrentRotation` exactly as its callers invoke it: the visible
arguments are `(startDate, people)` only; the first parameter `clock` is
the ambient wall-clock instant that the internal `new Date()` returns. -/
def getCurrentRotationAsCalled (clock : Int) (startDate : Int)
    (people : List String) : Rotation :=
  getCurrentRotation startDate people clock

/-- `getUpcomingRotations` exactly as its callers invoke it, with the
ambient wall-clock instant `clock` read internally by `new Date()`. -/
def getUpcomingRotationsAsCalled (clock : Int) (startDate : Int)
    (people : List String) (count : Int) : List UpcomingRotation :=
  getUpcomingRotations startDate people count clock

/-! Helper lemmas: floor division by the positive constants of the source
coincides with Euclidean division, which `omega` understands. -/

theorem fdiv_msPerDay (a : Int) : Int.fdiv a 86400000 = a / 86400000 :=
  Int.fdiv_eq_ediv a (by norm_num)

theorem fdiv_fourteen (a : Int) : Int.fdiv a 14 = a / 14 :=
  Int.fdiv_eq_ediv a (by norm_num)

theorem fdiv_seven (a : Int) : Int.fdiv a 7 = a / 7 :=
  Int.fdiv_eq_ediv a (by norm_num)

/-- C2: for every instant, `getMondayOfWeek` returns a Monday at
00:00:00.000 UTC that is at most the input and less than 7 days before
it; the Sunday anchor 2024-01-07 aligns to Monday 2024-01-01 (instant
1704585600000 maps to 1704067200000), not to 2024-01-08. -/
theorem getMondayOfWeek_is_monday_le_within_week (t : Int) :
    getUTCDay (getMondayOfWeek t) = 1 ∧
    (getMondayOfWeek t) % msPerDay = 0 ∧
    getMondayOfWeek t ≤ t ∧
    t - getMondayOfWeek t < 7 * msPerDay ∧
    getMondayOfWeek 1704585600000 = 1704067200000 := by
  refine ⟨?_, ?_, ?_, ?_, by decide⟩ <;>
  · simp only [getMondayOfWeek, getUTCDay, startOfUTCDay, dayNumber,
      fdiv_msPerDay, msPerDay]
    split <;> omega

/-- C3: for every anchor date and every instant `now`, the record returned
by `getCurrentRotation` has `periodStart` equal to the anchor's Monday
plus `periodIndex * 14` days at 00:00:00.000 UTC (the period index being
`rotationNumber - 1`), and `periodEnd` equal to `periodStart` plus 13
days with the time forced to 23:59:59.999 UTC of that day. -/
theorem periodStart_periodEnd_shape (startDate : Int) (people : List String)
    (now : Int) :
    (getCurrentRotation startDate people now).periodStart =
      getMondayOfWeek startDate +
        ((getCurrentRotation startDate people now).rotationNumber - 1) *
          (14 * msPerDay) ∧
    (getCurrentRotation startDate people now).periodStart % msPerDay = 0 ∧
    (getCurrentRotation startDate people now).periodEnd =
      (getCurrentRotation startDate people now).periodStart +
        13 * msPerDay + (msPerDay - 1) := by
  refine ⟨?_, ?_, ?_⟩ <;>
  · simp only [getCurrentRotation, getMondayOfWeek, getUTCDay, startOfUTCDay,
      dayNumber, addDays, setEndOfUTCDay, fdiv_msPerDay, fdiv_fourteen,
      fdiv_seven, msPerDay]
    split <;> omega

/-- C10 (implicit): the `isActive` field of the record returned by
`getCurrentRotation` is `true` for every anchor date and every `now`:
`now` always lies in the inclusive interval `[periodStart, periodEnd]`
by construction, so the field carries no information. -/
theorem isActive_always_true (startDate : Int) (people : List String)
    (now : Int) :
    (getCurrentRotation startDate people now).isActive = true ∧
    (getCurrentRotation startDate people now).periodStart ≤ now ∧
    now ≤ (getCurrentRotation startDate people now).periodEnd := by
  refine ⟨?_, ?_, ?_⟩ <;>
  · simp only [getCurrentRotation, getMondayOfWeek, getUTCDay, startOfUTCDay,
      dayNumber, addDays, setEndOfUTCDay, fdiv_msPerDay, fdiv_fourteen,
      Bool.and_eq_true, decide_eq_true_eq, ge_iff_le, msPerDay]
    split <;> omega

/-- C7: for a fixed anchor date and participant list, the period index
(and hence the 1-based `rotationNumber`) computed by
`getCurrentRotation` is monotonically non-decreasing in `now`. -/
theorem rotationNumber_monotone (startDate : Int) (people : List String)
    (now1 now2 : Int) (h : now1 ≤ now2) :
    (getCurrentRotation startDate people now1).rotationNumber ≤
      (getCurrentRotation startDate people now2).rotationNumber := by
  simp only [getCurrentRotation, getMondayOfWeek, getUTCDay, startOfUTCDay,
    dayNumber, fdiv_msPerDay, fdiv_fourteen, msPerDay]
  split <;> omega

/-- Witness for C7 at concrete inputs: 2024-01-01 precedes 2024-01-15 and
the rotation numbers there are ordered accordingly. -/
theorem rotationNumber_monotone_witness :
    (1704067200000 : Int) ≤ 1705276800000 ∧
    (getCurrentRotation 1704067200000 ["A", "B", "C"]
        1704067200000).rotationNumber ≤
      (getCurrentRotation 1704067200000 ["A", "B", "C"]
        1705276800000).rotationNumber :=
  ⟨by decide,
   rotationNumber_monotone 1704067200000 ["A", "B", "C"]
     1704067200000 1705276800000 (by decide)⟩

/-- The period index computed at `now = anchorMonday + 14 n` days is
exactly `n`. -/
theorem periodIndex_at_multiple (startDate : Int) (n : Nat) :
    Int.fdiv (Int.fdiv (getMondayOfWeek startDate + 14 * (n : Int) * msPerDay -
      getMondayOfWeek startDate) msPerDay) 14 = (n : Int) := by
  simp only [msPerDay, fdiv_msPerDay, fdiv_fourteen]
  omega

/-- `jsRem` on a natural dividend and a non-zero natural divisor is the
ordinary `Nat` remainder. -/
theorem jsRem_ofNat (n len : Nat) (h : len ≠ 0) :
    jsRem (n : Int) (len : Int) = some (((n % len : Nat) : Int)) := by
  simp only [jsRem, Int.ofNat_tmod]
  rw [if_neg (by exact_mod_cast h)]

/-- `jsIndex` at an in-range natural index returns that element. -/
theorem jsIndex_ofNat (xs : List String) (i : Nat) (h : i < xs.length) :
    jsIndex xs (some ((i : Nat) : Int)) = some (xs.get ⟨i, h⟩) := by
  simp only [jsIndex]
  rw [dif_pos ⟨by omega, by simpa using h⟩]
  rfl

/-- C4: at `now = anchorMonday + 14 n` days the current rotation has
period index `n` (1-based `rotationNumber` equal to `n + 1`) and
participant `people[n mod people.length]`; concretely, with participants
`["A", "B", "C"]` and anchor Monday 2024-01-01 (1704067200000), at
2024-01-01 the participant is "A" with rotation number 1 and period end
2024-01-14T23:59:59.999Z (1705276799999), at 2024-01-15 (1705276800000)
the participant is "B" with rotation number 2, and at 2024-02-12
(1707696000000, period index 3) the participant is "A" again. -/
theorem rotation_at_period_multiples (people : List String)
    (hne : people ≠ []) (startDate : Int) (n : Nat) :
    ((getCurrentRotation startDate people
        (getMondayOfWeek startDate + 14 * (n : Int) * msPerDay)).rotationNumber
        = (n : Int) + 1 ∧
      (getCurrentRotation startDate people
        (getMondayOfWeek startDate + 14 * (n : Int) * msPerDay)).currentPerson
        = some (people.get ⟨n % people.length,
            Nat.mod_lt n (List.length_pos.mpr hne)⟩)) ∧
    (getCurrentRotation 1704067200000 ["A", "B", "C"]
      1704067200000).currentPerson = some "A" ∧
    (getCurrentRotation 1704067200000 ["A", "B", "C"]
      1704067200000).rotationNumber = 1 ∧
    (getCurrentRotation 1704067200000 ["A", "B", "C"]
      1704067200000).periodEnd = 1705276799999 ∧
    (getCurrentRotation 1704067200000 ["A", "B", "C"]
      1705276800000).currentPerson = some "B" ∧
    (getCurrentRotation 1704067200000 ["A", "B", "C"]
      1705276800000).rotationNumber = 2 ∧
    (getCurrentRotation 1704067200000 ["A", "B", "C"]
      1707696000000).currentPerson = some "A" ∧
    (getCurrentRotation 1704067200000 ["A", "B", "C"]
      1707696000000).rotationNumber = 4 := by
  refine ⟨⟨?_, ?_⟩, by decide, by decide, by decide, by decide, by decide,
    by decide, by decide⟩
  · simp only [getCurrentRotation]
    rw [periodIndex_at_multiple]
  · simp only [getCurrentRotation]
    rw [periodIndex_at_multiple,
      jsRem_ofNat n people.length (List.length_pos.mpr hne).ne',
      jsIndex_ofNat people (n % people.length)
        (Nat.mod_lt n (List.length_pos.mpr hne))]

/-- Witness for C4: the general statement applied at anchor 2024-01-01
with participants `["A", "B", "C"]` and `n = 1`. -/
theorem rotation_at_period_multiples_witness :
    (["A", "B", "C"] : List String) ≠ [] ∧
    (getCurrentRotation 1704067200000 ["A", "B", "C"]
        (getMondayOfWeek 1704067200000 +
          14 * ((1 : Nat) : Int) * msPerDay)).rotationNumber
      = ((1 : Nat) : Int) + 1 :=
  ⟨by decide,
   (rotation_at_period_multiples ["A", "B", "C"] (by decide)
     1704067200000 1).1.1⟩

/-- C5: every entry produced by `getUpcomingRotations` is strictly future
relative to the current period (the loop starts at offset 1 and never
re-emits the current period): its `periodStart` lies strictly after the
current `periodEnd` and its rotation number is strictly larger; and the
single entry produced for `count = 1` has rotation number exactly the
current assignment's `rotationNumber` plus 1. -/
theorem forecast_strictly_future (people : List String) (hne : people ≠ [])
    (startDate now count : Int) :
    (∀ e ∈ getUpcomingRotations startDate people count now,
        (getCurrentRotation startDate people now).periodEnd < e.periodStart ∧
        (getCurrentRotation startDate people now).rotationNumber <
          e.rotationNumber) ∧
    (getUpcomingRotations startDate people 1 now).map
        (fun e => e.rotationNumber)
      = [(getCurrentRotation startDate people now).rotationNumber + 1] := by
  constructor
  · intro e he
    simp only [getUpcomingRotations, List.mem_map, List.mem_range] at he
    obtain ⟨k, hk, rfl⟩ := he
    simp only [getCurrentRotation, getMondayOfWeek, getUTCDay, startOfUTCDay,
      dayNumber, addDays, setEndOfUTCDay, fdiv_msPerDay, fdiv_fourteen,
      fdiv_seven, Int.ofNat_eq_natCast, msPerDay]
    constructor <;> (split <;> omega)
  · simp only [getUpcomingRotations, getCurrentRotation, Int.toNat_one,
      List.range_succ, List.range_zero, List.nil_append, List.map_cons,
      List.map_nil, Int.ofNat_eq_natCast, Int.natCast_zero, List.cons.injEq,
      and_true, addDays, setEndOfUTCDay, startOfUTCDay, dayNumber,
      getMondayOfWeek, getUTCDay, fdiv_msPerDay, fdiv_fourteen, fdiv_seven,
      msPerDay]
    split <;> omega

/-- Witness for C5: the general statement applied with participants
`["A", "B", "C"]`, anchor Monday 2024-01-01, `now` the same instant and
`count = 5`. -/
theorem forecast_strictly_future_witness :
    (["A", "B", "C"] : List String) ≠ [] ∧
    (getUpcomingRotations 1704067200000 ["A", "B", "C"] 1
        1704067200000).map (fun e => e.rotationNumber)
      = [(getCurrentRotation 1704067200000 ["A", "B", "C"]
          1704067200000).rotationNumber + 1] :=
  ⟨by decide,
   (forecast_strictly_future ["A", "B", "C"] (by decide)
     1704067200000 1704067200000 5).2⟩

/-- C8: `getUpcomingRotations` returns a finite sequence of length
exactly `count` when `count` is positive, the empty sequence when
`count ≤ 0`, and the source's default `count` is 5. -/
theorem forecast_length (people : List String) (hne : people ≠ [])
    (startDate now count : Int) :
    (0 < count →
      ((getUpcomingRotations startDate people count now).length : Int)
        = count) ∧
    (count ≤ 0 → getUpcomingRotations startDate people count now = []) ∧
    (getUpcomingRotationsDefault startDate people now).length = 5 := by
  refine ⟨?_, ?_, ?_⟩
  · intro h
    simp only [getUpcomingRotations, List.length_map, List.length_range]
    omega
  · intro h
    have h0 : count.toNat = 0 := by omega
    simp [getUpcomingRotations, h0]
  · simp [getUpcomingRotationsDefault, getUpcomingRotations]

/-- Witness for C8: the general statement applied with participants
`["A", "B", "C"]`, anchor Monday 2024-01-01, `now` the same instant and
`count = 3`. -/
theorem forecast_length_witness :
    (["A", "B", "C"] : List String) ≠ [] ∧ (0 : Int) < 3 ∧
    ((getUpcomingRotations 1704067200000 ["A", "B", "C"] 3
        1704067200000).length : Int) = 3 :=
  ⟨by decide, by decide,
   (forecast_length ["A", "B", "C"] (by decide) 1704067200000
     1704067200000 3).1 (by decide)⟩

/-- The JavaScript remainder of `-1` by a natural number at least 2 is
`-1`, not the mathematical modulo. -/
theorem tmod_neg_one (n : Nat) (h : 2 ≤ n) :
    Int.tmod (-1) ((n : Nat) : Int) = -1 := by
  have h1 : Int.tmod (-1) ((n : Nat) : Int) = -(((1 % n : Nat)) : Int) := rfl
  rw [h1, Nat.mod_eq_of_lt (by omega)]
  rfl

/-- C1 counterexample: with participants `["A", "B", "C"]`, anchor Monday
2024-01-01 (1704067200000) and `now` one day earlier (1703980800000,
Sunday 2023-12-31), the period index is `-1` (`rotationNumber` field 0),
but the participant index is the JavaScript remainder `-1` — not `(-1)
mod 3 = 2` as the claim states — hence out of `[0, 3)`, and the selected
participant is `undefined` (`none`), not the last element "C". -/
theorem participant_index_claim_counterexample :
    (getCurrentRotation 1704067200000 ["A", "B", "C"]
      1703980800000).rotationNumber = 0 ∧
    (getCurrentRotation 1704067200000 ["A", "B", "C"]
      1703980800000).currentPersonIndex = some (-1) ∧
    (getCurrentRotation 1704067200000 ["A", "B", "C"]
      1703980800000).currentPersonIndex ≠ some ((-1 : Int) % 3) ∧
    (getCurrentRotation 1704067200000 ["A", "B", "C"]
      1703980800000).currentPerson = none ∧
    (getCurrentRotation 1704067200000 ["A", "B", "C"]
      1703980800000).currentPerson ≠ some "C" := by
  decide

/-- C1 amended: for non-negative period indices the participant index is
the mathematical modulo in `[0, people.length)` and the participant is
the corresponding list element; when `now` is one day before the anchor
Monday the period index is `-1` and the participant index is the
JavaScript remainder `Int.tmod (-1) people.length` (which is `-1` for
lists of length at least 2, so the participant lookup yields `none`, not
the last element; there is no crash). -/
theorem participant_index_amended (people : List String) (hne : people ≠ [])
    (startDate now : Int) :
    (0 ≤ (getCurrentRotation startDate people now).rotationNumber - 1 →
      (getCurrentRotation startDate people now).currentPersonIndex =
        some (((getCurrentRotation startDate people now).rotationNumber - 1) %
          (people.length : Int)) ∧
      (getCurrentRotation startDate people now).currentPerson =
        people.get? ((((getCurrentRotation startDate people
          now).rotationNumber - 1) % (people.length : Int)).toNat)) ∧
    (now = getMondayOfWeek startDate - msPerDay →
      (getCurrentRotation startDate people now).rotationNumber - 1 = -1 ∧
      (getCurrentRotation startDate people now).currentPersonIndex =
        some (Int.tmod (-1) (people.length : Int)) ∧
      (2 ≤ people.length →
        (getCurrentRotation startDate people now).currentPerson = none)) := by
  have hlen : (0 : Int) < (people.length : Int) := by
    exact_mod_cast List.length_pos.mpr hne
  constructor
  · intro h
    simp only [getCurrentRotation] at h ⊢
    set q := Int.fdiv (Int.fdiv (now - getMondayOfWeek startDate) msPerDay) 14
      with hqdef
    have hsimp : q + 1 - 1 = q := by omega
    have hq0 : 0 ≤ q := by omega
    rw [hsimp]
    have hrem : jsRem q (people.length : Int) =
        some (q % (people.length : Int)) := by
      simp only [jsRem, if_neg hlen.ne', Int.tmod_eq_emod hq0 hlen.le]
    refine ⟨hrem, ?_⟩
    rw [hrem]
    have h0 : 0 ≤ q % (people.length : Int) := Int.emod_nonneg q hlen.ne'
    have h1 : q % (people.length : Int) < (people.length : Int) :=
      Int.emod_lt_of_pos q hlen
    have h2 : (q % (people.length : Int)).toNat < people.length := by omega
    simp only [jsIndex]
    rw [dif_pos ⟨h0, h2⟩, List.get?_eq_get h2]
  · intro hnow
    subst hnow
    simp only [getCurrentRotation]
    have hq : Int.fdiv (Int.fdiv (getMondayOfWeek startDate - msPerDay -
        getMondayOfWeek startDate) msPerDay) 14 = -1 := by
      simp only [msPerDay, fdiv_msPerDay, fdiv_fourteen]
      omega
    rw [hq]
    refine ⟨by omega, ?_, ?_⟩
    · simp only [jsRem, if_neg hlen.ne']
    · intro h2
      simp only [jsRem, if_neg hlen.ne', tmod_neg_one people.length h2,
        jsIndex]
      rw [dif_neg (by omega)]

/-- Witness for the amended C1: at anchor Monday 2024-01-01 and `now`
2024-01-15 the participant index equals the mathematical modulo of the
period index. -/
theorem participant_index_amended_witness :
    (["A", "B", "C"] : List String) ≠ [] ∧
    (getCurrentRotation 1704067200000 ["A", "B", "C"]
        1705276800000).currentPersonIndex =
      some (((getCurrentRotation 1704067200000 ["A", "B", "C"]
          1705276800000).rotationNumber - 1) %
        ((["A", "B", "C"] : List String).length : Int)) :=
  ⟨by decide,
   ((participant_index_amended ["A", "B", "C"] (by decide)
     1704067200000 1705276800000).1 (by decide)).1⟩

/-- C6 counterexample: neither rotation function signals an error on the
inputs the claim says must fail.  With empty `people`,
`getCurrentRotation` returns a complete record (rotation number 1, person
index `NaN`, person `undefined`); with negative `count`,
`getUpcomingRotations` returns the empty array; with empty `people` and
`count = 2` it returns 2 entries. -/
theorem invalid_argument_counterexample :
    (getCurrentRotation 1704067200000 [] 1704067200000).rotationNumber
      = 1 ∧
    (getCurrentRotation 1704067200000 [] 1704067200000).currentPersonIndex
      = none ∧
    (getCurrentRotation 1704067200000 [] 1704067200000).currentPerson
      = none ∧
    getUpcomingRotations 1704067200000 ["A"] (-1) 1704067200000 = [] ∧
    (getUpcomingRotations 1704067200000 [] 2 1704067200000).length = 2 := by
  decide

/-- C6 amended: the core performs no argument validation.  With empty
`people`, `getCurrentRotation` returns a record whose person index is
`NaN` (`none`) and whose person is `undefined` (`none`); with `count ≤ 0`
the forecast is the empty sequence; with empty `people` every forecast
entry has an `undefined` person.  No error is signalled in any of these
cases (the HTTP layer alone rejects empty `people`). -/
theorem no_validation_in_core (startDate now count : Int)
    (people : List String) (hc : count ≤ 0) :
    (getCurrentRotation startDate [] now).currentPersonIndex = none ∧
    (getCurrentRotation startDate [] now).currentPerson = none ∧
    getUpcomingRotations startDate people count now = [] ∧
    ∀ e ∈ getUpcomingRotations startDate [] 5 now, e.person = none := by
  refine ⟨?_, ?_, ?_, ?_⟩
  · simp [getCurrentRotation, jsRem]
  · simp [getCurrentRotation, jsRem, jsIndex]
  · have h0 : count.toNat = 0 := by omega
    simp [getUpcomingRotations, h0]
  · intro e he
    simp only [getUpcomingRotations, List.mem_map, List.mem_range] at he
    obtain ⟨k, hk, rfl⟩ := he
    simp [jsRem, jsIndex]

/-- Witness for the amended C6 at concrete inputs with `count = -1`. -/
theorem no_validation_in_core_witness :
    ((-1 : Int) ≤ 0) ∧
    getUpcomingRotations 1704067200000 ["A"] (-1) 1704067200000 = [] :=
  ⟨by decide,
   (no_validation_in_core 1704067200000 1704067200000 (-1) ["A"]
     (by decide)).2.2.1⟩

/-- C9 counterexample: in the source, `now` is read internally by
`new Date()` rather than supplied by the caller, so two invocations with
identical supplied arguments `(startDate, people)` — here anchor
2024-01-01 and participants `["A", "B", "C"]` — made at different
wall-clock instants (2024-01-01 and 2024-01-15) return different
records and different forecast arrays. -/
theorem internal_clock_counterexample :
    getCurrentRotationAsCalled 1704067200000 1704067200000
        ["A", "B", "C"] ≠
      getCurrentRotationAsCalled 1705276800000 1704067200000
        ["A", "B", "C"] ∧
    getUpcomingRotationsAsCalled 1704067200000 1704067200000
        ["A", "B", "C"] 1 ≠
      getUpcomingRotationsAsCalled 1705276800000 1704067200000
        ["A", "B", "C"] 1 := by
  decide

/-- C9 amended: the computations are deterministic pure functions of
`(people, anchorDate)` together with the ambient wall-clock instant read
internally by `new Date()`: making that instant an explicit argument
yields exactly the same results, so two invocations at the same instant
with the same supplied arguments produce identical structures. -/
theorem deterministic_given_clock (clock startDate count : Int)
    (people : List String) :
    getCurrentRotationAsCalled clock startDate people =
      getCurrentRotation startDate people clock ∧
    getUpcomingRotationsAsCalled clock startDate people count =
      getUpcomingRotations startDate people count clock :=
  ⟨rfl, rfl⟩

end CleaningSchedule
